import Mathlib

/-!
Verification of the pyaranet4 device-protocol core: byte codec, value
normalizer, snapshot decoder, history chunk reassembler, history
reconciler and session controller, embedded from
`pyaranet4/util.py`, `pyaranet4/pyaranet4.py` and
`pyaranet4/exceptions.py`.

Byte buffers are `List Nat` (each entry a byte 0..255 where the source
guarantees it); Python `int` values that may be negative are `Int`;
Python `float` results of division are modelled exactly in `ℚ`;
fallible operations (out-of-range indexing, unknown sensor tags,
Python exceptions) return `Option`/`Except`.
-/

namespace Pyaranet4

/-- Python exceptions that the embedded code can raise.  `busy`,
`notFound` and `unpaired` come from `exceptions.py`; `indexError`,
`keyError` and `valueError` are the Python built-ins the code can hit;
`emptyHistory` is the error named by the spec for an empty common index
set — `exceptions.py` defines no such class and no code path below
produces it. -/
inductive PyError where
  | busy
  | notFound
  | unpaired
  | indexError
  | keyError
  | valueError
  | emptyHistory
deriving DecidableEq

/-! ## Byte codec (`util.py`) -/

/-- Source `le16(data, start)`: `raw[start] + (raw[start + 1] << 8)`.
`none` when an index is out of range (Python `IndexError`). -/
def le16 (data : List Nat) (start : Nat) : Option Nat :=
  match data.get? start, data.get? (start + 1) with
  | some lo, some hi => some (lo + (hi <<< 8))
  | _, _ => none

/-- Source `write_le16(data, pos, value)`: `data[pos] = value & 0xFF;
data[pos + 1] = (value >> 8) & 0xFF`.  `value` is a Python `int`
(possibly negative); `&` on a Python int is arithmetic on its infinite
two's-complement form, so `value & 0xFF = value mod 256` and
`value >> 8` is flooring division by 256.  `none` when an index is out
of range. -/
def write_le16 (data : List Nat) (pos : Nat) (value : Int) : Option (List Nat) :=
  if pos + 1 < data.length then
    some ((data.set pos (value % 256).toNat).set (pos + 1) ((value.fdiv 256 % 256).toNat))
  else
    none

/-! ## Sensor identifiers (`Aranet4.SENSOR_*`) -/

def SENSOR_TEMPERATURE : Nat := 1
def SENSOR_HUMIDITY : Nat := 2
def SENSOR_PRESSURE : Nat := 3
def SENSOR_CO2 : Nat := 4

/-! ## Value normalizer (`Aranet4._normalize_value`) -/

/-- Source `_normalize_value(value, sensor)`.  Mirrors the `if`/`elif` chain of
the source; the final `return value` is the fall-through for humidity
and CO₂ readings that are not sentinels.  An unknown sensor tag raises
`ValueError`, modelled as `none`. -/
def normalize_value (value : Nat) (sensor : Nat) : Option ℚ :=
  if sensor = SENSOR_HUMIDITY then
    if value &&& 0x80 = 0x80 then some (-1) else some (value : ℚ)
  else if sensor = SENSOR_CO2 then
    if value &&& 0x8000 = 0x8000 then some (-1) else some (value : ℚ)
  else if sensor = SENSOR_PRESSURE then
    if value &&& 0x8000 = 0x8000 then some (-1) else some ((value : ℚ) / 10)
  else if sensor = SENSOR_TEMPERATURE then
    if value = 0x4000 then some (-1)
    else if value > 0x8000 then some 0
    else some ((value : ℚ) / 20)
  else
    none

/-! ## Snapshot decoder (`Aranet4._get_readings`) -/

/-- The namespace of values built by `_get_readings`.  The
`update_interval` and `since_last_update` attributes are only set in
the full (non-simple) variant, hence `Option`. -/
structure ReadingSnapshot where
  co2 : ℚ
  temperature : ℚ
  pressure : ℚ
  humidity : ℚ
  battery_level : Nat
  update_interval : Option Nat
  since_last_update : Option Nat
deriving DecidableEq

/-- Source `_get_readings(simple)`, applied to the raw characteristic payload
`data` it reads.  Field by field as in the source: CO₂ at `le16(data)`,
temperature at `le16(data, 2)`, pressure at `le16(data, 4)`, humidity
at `data[6]`, battery at `data[7]`; the full variant adds
`le16(data, 9)` and `le16(data, 11)`.  `none` when the buffer is too
short (Python `IndexError`). -/
def get_readings (data : List Nat) (simple : Bool) : Option ReadingSnapshot :=
  match le16 data 0, le16 data 2, le16 data 4, data.get? 6, data.get? 7 with
  | some raw_co2, some raw_temp, some raw_pres, some raw_hum, some battery =>
    match normalize_value raw_co2 SENSOR_CO2,
        normalize_value raw_temp SENSOR_TEMPERATURE,
        normalize_value raw_pres SENSOR_PRESSURE,
        normalize_value raw_hum SENSOR_HUMIDITY with
    | some co2, some temperature, some pressure, some humidity =>
      if simple then
        some ⟨co2, temperature, pressure, humidity, battery, none, none⟩
      else
        match le16 data 9, le16 data 11 with
        | some ui, some slu =>
          some ⟨co2, temperature, pressure, humidity, battery, some ui, some slu⟩
        | _, _ => none
    | _, _, _, _ => none
  | _, _, _, _, _ => none

/-! ## Python dictionaries

Modelled as association lists: insertion of a present key replaces the
value in place, insertion of a fresh key appends, lookup scans from the
front (keys built by `dict_insert` are unique, so first match = the
entry). -/

def dict_get {β : Type} (m : List (Int × β)) (k : Int) : Option β :=
  match m with
  | [] => none
  | kv :: rest => if kv.1 = k then some kv.2 else dict_get rest k

def dict_insert {β : Type} (m : List (Int × β)) (k : Int) (v : β) : List (Int × β) :=
  if (dict_get m k).isSome then
    m.map (fun kv => if kv.1 = k then (k, v) else kv)
  else
    m ++ [(k, v)]

/-- Python `{**a, **b}`: a copy of `a` updated with the entries of `b` in
order, `b` overriding `a` on common keys. -/
def dict_merge {β : Type} (a b : List (Int × β)) : List (Int × β) :=
  b.foldl (fun m kv => dict_insert m kv.1 kv.2) a

/-! ## History chunk reassembler (`Aranet4._get_history_reader`) -/

/-- The object state the notification callback touches:
`self._last_notification` (wall-clock seconds) and `self._datapoints`
(the sparse index → normalized value map). -/
structure ReaderState where
  last_notification : Int
  datapoints : List (Int × ℚ)
deriving DecidableEq

/-- The `while len(buffer) < num_points` loop of `_receive_history`.
Each iteration inserts a fresh key (`index` strictly increases and the
buffer starts empty), so `len(buffer)` grows by exactly one per
iteration and the loop runs exactly `num_points` times; the remaining
iteration count is the recursion measure.  For humidity the value is
the single byte `data[cursor:cursor + 1][0]`, otherwise
`le16(data[cursor:cursor + 2])`; a slice shorter than `step` makes the
read raise `IndexError` (`none`).  Each value is normalized and stored
at `buffer[index - 2]`, then `cursor += step; index += 1`. -/
def read_chunk_values (sensor : Nat) (payload : List Nat) (step : Nat) :
    Nat → Nat → Int → List (Int × ℚ) → Option (List (Int × ℚ))
  | 0, _, _, buffer => some buffer
  | n + 1, cursor, index, buffer =>
    match (if sensor = SENSOR_HUMIDITY then payload.get? cursor
           else le16 payload cursor) with
    | none => none
    | some raw =>
      match normalize_value raw sensor with
      | none => none
      | some v =>
        read_chunk_values sensor payload step n (cursor + step) (index + 1)
          (dict_insert buffer (index - 2) v)

/-- The `_receive_history` callback produced by
`_get_history_reader(sensor)`, as a state transformer on the reader
state.  `now` is the value of `time.time()` during this call.  Note
the source assigns `self._last_notification = time.time()` before
checking the sensor tag, so even a discarded chunk refreshes it.
`none` models an uncaught Python exception (short chunk header, short
payload, or an unknown sensor tag reaching `_normalize_value`). -/
def receive_history (sensor : Nat) (now : Int) (st : ReaderState)
    (data : List Nat) : Option ReaderState :=
  let st := { st with last_notification := now }
  match data.get? 0 with
  | none => none
  | some tag =>
    if tag ≠ sensor then some st
    else
      match le16 data 1, data.get? 3 with
      | some index, some num_points =>
        let payload := data.drop 4
        let step := if sensor = SENSOR_HUMIDITY then 1 else 2
        match read_chunk_values sensor payload step num_points 0 (index : Int) [] with
        | some buffer => some { st with datapoints := dict_merge st.datapoints buffer }
        | none => none
      | _, _ => none

/-! ## Range-request payload (`_get_history`, construction of `params`) -/

/-- The 8-byte command buffer of `_get_history`:
`params = bytearray.fromhex("820000000100ffff")`, then
`start = start + 1; if start < 1: start = 0x0001`, then
`write_le16(params, 4, start)` and `write_le16(params, 6, end)`.
`start` and `end` are caller-supplied Python ints, hence `Int`. -/
def history_range_params (start end_ : Int) : Option (List Nat) :=
  let start1 := start + 1
  let start2 := if start1 < 1 then 1 else start1
  match write_le16 [0x82, 0x00, 0x00, 0x00, 0x01, 0x00, 0xFF, 0xFF] 4 start2 with
  | none => none
  | some params => write_le16 params 6 end_

/-- Inside the per-sensor loop the source then sets
`params[1] = sensor` before writing the buffer to the history-range
characteristic. -/
def history_range_params_for_sensor (sensor : Nat) (start end_ : Int) :
    Option (List Nat) :=
  match history_range_params start end_ with
  | none => none
  | some params => some (params.set 1 sensor)

/-! ## Session controller and history reconciler (`Aranet4._get_history`)

The device and transport are external: for each processed sensor the
environment supplies the wall clock, the since-last-update reading, the
sparse datapoint map collected by the notification callback while it
was subscribed, and whether any of the characteristic read/write/
subscribe operations issued for that sensor (all of which happen before
the loop's `self._reading = False`) raised.  `interval_error` likewise
stands for an exception between `self._reading = True` and the loop:
discovery, connection, or the update-interval read. -/

structure SensorEnv where
  pre_error : Option PyError
  now : Int
  since_last_update : Nat
  datapoints : List (Int × ℚ)

structure HistoryEnv where
  interval_error : Option PyError
  interval : Nat
  sensor_env : Nat → SensorEnv

/-- The local state threaded through the per-sensor loop of
`_get_history`, together with the object's `self._reading` flag. -/
structure LoopState where
  reading : Bool
  encountered : List (Finset Int)
  index_map : List (Int × Int)
  readings : List (Nat × List (Int × ℚ))
  included : List String
deriving DecidableEq

/-- Python `set(m.keys())`. -/
def keyset {β : Type} (m : List (Int × β)) : Finset Int :=
  (m.map Prod.fst).toFinset

/-- Python `max(m)`: the greatest key of a dict, `none` (`ValueError`)
when the dict is empty. -/
def max_key {β : Type} (m : List (Int × β)) : Option Int :=
  (m.map Prod.fst).max?

/-- Source `keys = ["", "temperature", "humidity", "pressure", "co2"]`. -/
def sensor_names : List String :=
  ["", "temperature", "humidity", "pressure", "co2"]

def default_sensors : List Nat :=
  [SENSOR_CO2, SENSOR_HUMIDITY, SENSOR_PRESSURE, SENSOR_TEMPERATURE]

/-- The `for sensor in sensors` loop of `_get_history`.  Per
iteration, in source order: the since-last-update read and range write
happen (any failure there aborts with the state as-is, flag still set),
the notifications settle into `e.datapoints`, notifications stop,
`self._reading = False`, the key set is appended to
`encountered_indexes`, `index_map[max(datapoints)] = last_timestamp`
(`ValueError` on an empty dict), the map is attached under
`keys[sensor]` (`IndexError` if the sensor id is out of range) and the
name appended to `included_keys`. -/
def history_loop (env : Nat → SensorEnv) :
    List Nat → Nat → LoopState → LoopState × Option PyError
  | [], _, st => (st, none)
  | sensor :: rest, i, st =>
    let e := env i
    match e.pre_error with
    | some err => (st, some err)
    | none =>
      let last_timestamp := e.now - (e.since_last_update : Int)
      let st1 : LoopState := { st with
        reading := false,
        encountered := st.encountered ++ [keyset e.datapoints] }
      match max_key e.datapoints with
      | none => (st1, some PyError.valueError)
      | some mx =>
        let st2 : LoopState := { st1 with
          index_map := dict_insert st1.index_map mx last_timestamp }
        match sensor_names.get? sensor with
        | none => (st2, some PyError.indexError)
        | some name =>
          let st3 : LoopState := { st2 with
            readings := st2.readings ++ [(sensor, e.datapoints)],
            included := st2.included ++ [name] }
          history_loop env rest (i + 1) st3

/-- Python `set.intersection(*encountered_indexes)` (the loop always runs at
least once, so the list is never empty on the reconciliation path). -/
def intersect_all : List (Finset Int) → Finset Int
  | [] => ∅
  | s :: rest => rest.foldl (fun a b => a ∩ b) s

/-- Dropping the keys outside `common_indexes` from one sensor's map. -/
def restrict (m : List (Int × ℚ)) (common : Finset Int) : List (Int × ℚ) :=
  m.filter (fun kv => kv.1 ∈ common)

/-- Python `sorted(common_indexes, reverse=True)`. -/
def sort_desc (s : Finset Int) : List Int :=
  (s.sort (· ≤ ·)).reverse

/-- The `for index in common_indexes: readings.timestamps[index] =
timestamp; timestamp -= interval` loop. -/
def assign_timestamps (interval : Int) : List Int → Int → List (Int × Int)
  | [], _ => []
  | idx :: rest, t => (idx, t) :: assign_timestamps interval rest (t - interval)

/-- The namespace returned by `_get_history`: per-sensor maps (keyed
here by sensor id; the source attaches them under the
`sensor_names[sensor]` attribute), the `sensors` name list and the
`timestamps` map. -/
structure ReconciledHistory where
  sensors : List String
  per_sensor : List (Nat × List (Int × ℚ))
  timestamps : List (Int × Int)
deriving DecidableEq

def init_loop_state : LoopState := ⟨true, [], [], [], []⟩

/-- Source `_get_history(sensors, start, end)` as a function of the initial
`self._reading` flag and the environment; returns the call's outcome
and the final value of the flag. -/
def get_history (reading : Bool) (sensors : List Nat) (start end_ : Int)
    (env : HistoryEnv) : Except PyError ReconciledHistory × Bool :=
  let sensors2 := if sensors.isEmpty then default_sensors else sensors
  if reading then (Except.error PyError.busy, reading)
  else
    -- self._reading = True; discovery; params built (written per sensor
    -- inside the loop, failures covered by pre_error); interval read
    let _params := history_range_params start end_
    match env.interval_error with
    | some e => (Except.error e, true)
    | none =>
      match history_loop env.sensor_env sensors2 0 init_loop_state with
      | (st, some e) => (Except.error e, st.reading)
      | (st, none) =>
        let common := intersect_all st.encountered
        let restricted := st.readings.map (fun sp => (sp.1, restrict sp.2 common))
        match sort_desc common with
        | [] => (Except.error PyError.indexError, st.reading)
        | c0 :: cs =>
          match dict_get st.index_map c0 with
          | none => (Except.error PyError.keyError, st.reading)
          | some t0 =>
            (Except.ok ⟨st.included, restricted,
              assign_timestamps (env.interval : Int) (c0 :: cs) t0⟩,
              st.reading)

end Pyaranet4

namespace Pyaranet4

/-! ## Helper lemmas -/

/-- Reading `le16` succeeds exactly on in-range offsets, returning the
little-endian combination of the two bytes there. -/
theorem le16_eq_some (data : List Nat) (start : Nat) (h : start + 1 < data.length) :
    le16 data start = some (data.get ⟨start, by omega⟩ +
      (data.get ⟨start + 1, h⟩) <<< 8) := by
  rw [le16, List.get?_eq_get (by omega : start < data.length), List.get?_eq_get h]

theorem dict_get_eq_none_iff {β : Type} (m : List (Int × β)) (k : Int) :
    dict_get m k = none ↔ k ∉ m.map Prod.fst := by
  induction m with
  | nil => simp [dict_get]
  | cons kv rest ih =>
    rw [dict_get]
    by_cases h : kv.1 = k <;> simp [h, ih, eq_comm]
    exact fun _ he => h he.symm

theorem dict_get_map_update {β : Type} (m : List (Int × β)) (k : Int) (v : β)
    (h : (dict_get m k).isSome) :
    dict_get (m.map (fun kv => if kv.1 = k then (k, v) else kv)) k = some v := by
  induction m with
  | nil => simp [dict_get] at h
  | cons kv rest ih =>
    by_cases hk : kv.1 = k
    · simp [hk, dict_get]
    · rw [dict_get] at h
      rw [if_neg hk] at h
      simp only [List.map_cons, if_neg hk]
      rw [dict_get, if_neg hk]
      exact ih h

theorem dict_get_map_update_ne {β : Type} (m : List (Int × β)) (k k' : Int) (v : β)
    (h : k' ≠ k) :
    dict_get (m.map (fun kv => if kv.1 = k then (k, v) else kv)) k' = dict_get m k' := by
  induction m with
  | nil => simp [dict_get]
  | cons kv rest ih =>
    by_cases hk : kv.1 = k
    · have : kv.1 ≠ k' := by omega
      simp only [List.map_cons, if_pos hk]
      rw [dict_get, dict_get, if_neg (by omega : k ≠ k'), if_neg this]
      exact ih
    · simp only [List.map_cons, if_neg hk]
      rw [dict_get, dict_get]
      by_cases hk' : kv.1 = k' <;> simp [hk', ih]

theorem dict_get_append {β : Type} (a b : List (Int × β)) (k : Int) :
    dict_get (a ++ b) k =
      match dict_get a k with
      | some v => some v
      | none => dict_get b k := by
  induction a with
  | nil => simp [dict_get]
  | cons kv rest ih =>
    rw [List.cons_append, dict_get, dict_get]
    by_cases hk : kv.1 = k <;> simp [hk, ih]

theorem dict_get_insert_self {β : Type} (m : List (Int × β)) (k : Int) (v : β) :
    dict_get (dict_insert m k v) k = some v := by
  rw [dict_insert]
  split
  · exact dict_get_map_update m k v (by assumption)
  · rw [dict_get_append]
    rename_i h
    rw [Option.not_isSome_iff_eq_none.mp h]
    simp [dict_get]

theorem dict_get_insert_ne {β : Type} (m : List (Int × β)) (k k' : Int) (v : β)
    (h : k' ≠ k) :
    dict_get (dict_insert m k v) k' = dict_get m k' := by
  rw [dict_insert]
  split
  · exact dict_get_map_update_ne m k k' v h
  · rw [dict_get_append]
    have : dict_get [(k, v)] k' = none := by
      rw [dict_get, if_neg (by omega : k ≠ k')]
      rfl
    cases hm : dict_get m k' <;> simp [this]

theorem dict_insert_keys_mem {β : Type} (m : List (Int × β)) (k0 k : Int) (v : β)
    (h : k ∈ (dict_insert m k0 v).map Prod.fst) :
    k ∈ m.map Prod.fst ∨ k = k0 := by
  rw [dict_insert] at h
  split at h
  · rw [List.map_map] at h
    obtain ⟨kv, hkv, hk⟩ := List.mem_map.mp h
    by_cases hk0 : kv.1 = k0
    · simp [Function.comp, hk0] at hk
      exact Or.inr hk.symm
    · simp [Function.comp, hk0] at hk
      exact Or.inl (hk ▸ List.mem_map_of_mem Prod.fst hkv)
  · rw [List.map_append] at h
    rcases List.mem_append.mp h with h | h
    · exact Or.inl h
    · simp at h
      exact Or.inr h

theorem dict_insert_of_fresh {β : Type} (m : List (Int × β)) (k : Int) (v : β)
    (h : k ∉ m.map Prod.fst) : dict_insert m k v = m ++ [(k, v)] := by
  rw [dict_insert, if_neg]
  rw [(dict_get_eq_none_iff m k).mpr h]
  simp

theorem dict_get_merge_of_none {β : Type} (a b : List (Int × β)) (k : Int)
    (h : dict_get b k = none) : dict_get (dict_merge a b) k = dict_get a k := by
  induction b generalizing a with
  | nil => rfl
  | cons kv rest ih =>
    rw [dict_get] at h
    by_cases hk : kv.1 = k
    · simp [hk] at h
    · rw [if_neg hk] at h
      show dict_get (dict_merge (dict_insert a kv.1 kv.2) rest) k = dict_get a k
      rw [ih (dict_insert a kv.1 kv.2) h]
      exact dict_get_insert_ne a kv.1 k kv.2 (fun he => hk he.symm)

theorem dict_get_merge_of_some {β : Type} (a b : List (Int × β)) (k : Int) (v : β)
    (hnodup : (b.map Prod.fst).Nodup) (h : dict_get b k = some v) :
    dict_get (dict_merge a b) k = some v := by
  induction b generalizing a with
  | nil => simp [dict_get] at h
  | cons kv rest ih =>
    rw [List.map_cons, List.nodup_cons] at hnodup
    rw [dict_get] at h
    by_cases hk : kv.1 = k
    · rw [if_pos hk] at h
      subst hk
      have hrest : dict_get rest kv.1 = none :=
        (dict_get_eq_none_iff rest kv.1).mpr hnodup.1
      show dict_get (dict_merge (dict_insert a kv.1 kv.2) rest) kv.1 = some v
      rw [dict_get_merge_of_none _ _ _ hrest, dict_get_insert_self a kv.1 kv.2]
      exact h
    · rw [if_neg hk] at h
      exact ih (dict_insert a kv.1 kv.2) hnodup.2 h

/-- The normalizer is total on each of the four known sensor tags. -/
theorem normalize_value_isSome (raw sensor : Nat)
    (h : sensor = SENSOR_TEMPERATURE ∨ sensor = SENSOR_HUMIDITY ∨
      sensor = SENSOR_PRESSURE ∨ sensor = SENSOR_CO2) :
    (normalize_value raw sensor).isSome := by
  rcases h with h | h | h | h <;> subst h <;>
    simp only [normalize_value, SENSOR_TEMPERATURE, SENSOR_HUMIDITY,
      SENSOR_PRESSURE, SENSOR_CO2] <;>
    norm_num <;> (repeat' split) <;> simp

theorem foldl_inter_subset_acc (rest : List (Finset Int)) :
    ∀ a : Finset Int, rest.foldl (fun x y => x ∩ y) a ⊆ a := by
  induction rest with
  | nil => intro a; exact Finset.Subset.refl a
  | cons b rest ih =>
    intro a
    rw [List.foldl_cons]
    exact (ih (a ∩ b)).trans (Finset.inter_subset_left)

theorem foldl_inter_subset_mem (rest : List (Finset Int)) :
    ∀ (a s : Finset Int), s ∈ rest → rest.foldl (fun x y => x ∩ y) a ⊆ s := by
  induction rest with
  | nil => intro a s h; simp at h
  | cons b rest ih =>
    intro a s h
    rw [List.foldl_cons]
    rcases List.mem_cons.mp h with h | h
    · exact h ▸ (foldl_inter_subset_acc rest (a ∩ b)).trans Finset.inter_subset_right
    · exact ih (a ∩ b) s h

/-- A member of the intersected list contains the intersection. -/
theorem intersect_all_subset (l : List (Finset Int)) (s : Finset Int) (h : s ∈ l) :
    intersect_all l ⊆ s := by
  cases l with
  | nil => simp at h
  | cons a rest =>
    rw [intersect_all]
    rcases List.mem_cons.mp h with h | h
    · exact h ▸ foldl_inter_subset_acc rest a
    · exact foldl_inter_subset_mem rest a s h

/-- Restriction keeps exactly the keys that lie in `common`. -/
theorem keyset_restrict (m : List (Int × ℚ)) (common : Finset Int) :
    keyset (restrict m common) = keyset m ∩ common := by
  unfold keyset restrict
  ext k
  simp only [List.mem_toFinset, List.mem_map, List.mem_filter, Finset.mem_inter,
    decide_eq_true_eq]
  constructor
  · rintro ⟨kv, ⟨hmem, hin⟩, hk⟩
    exact ⟨⟨kv, hmem, hk⟩, hk ▸ hin⟩
  · rintro ⟨⟨kv, hmem, hk⟩, hin⟩
    exact ⟨kv, ⟨hmem, hk ▸ hin⟩, hk⟩

theorem assign_timestamps_map_fst (interval : Int) :
    ∀ (l : List Int) (t : Int), (assign_timestamps interval l t).map Prod.fst = l := by
  intro l
  induction l with
  | nil => intro t; rfl
  | cons x rest ih =>
    intro t
    rw [assign_timestamps, List.map_cons, ih]

theorem assign_timestamps_get (interval : Int) :
    ∀ (l : List Int), l.Nodup → ∀ (t : Int) (j : Nat) (hj : j < l.length),
      dict_get (assign_timestamps interval l t) (l.get ⟨j, hj⟩) =
        some (t - j * interval) := by
  intro l
  induction l with
  | nil => intro _ t j hj; simp at hj
  | cons x rest ih =>
    intro hnodup t j hj
    rw [List.nodup_cons] at hnodup
    cases j with
    | zero =>
      rw [assign_timestamps]
      show dict_get ((x, t) :: _) x = _
      rw [dict_get, if_pos rfl]
      norm_num
    | succ j2 =>
      rw [assign_timestamps]
      have hj2 : j2 < rest.length := by simpa using hj
      have hget : (x :: rest).get ⟨j2 + 1, hj⟩ = rest.get ⟨j2, hj2⟩ := rfl
      rw [hget]
      have hxne : x ≠ rest.get ⟨j2, hj2⟩ := by
        intro he
        exact hnodup.1 (he ▸ rest.get_mem j2 hj2)
      rw [dict_get, if_neg hxne]
      rw [ih hnodup.2 (t - interval) j2 hj2]
      congr 1
      push_cast
      ring

theorem sort_desc_empty : sort_desc ∅ = [] := by
  rw [sort_desc, Finset.sort_empty]
  rfl

theorem sort_desc_singleton (a : Int) : sort_desc {a} = [a] := by
  rw [sort_desc, Finset.sort_singleton]
  rfl

/-- Loop invariant: every per-sensor map stored in `readings` has its
key set recorded in `encountered_indexes`. -/
theorem history_loop_aligned (env : Nat → SensorEnv) :
    ∀ (ss : List Nat) (i : Nat) (st0 st : LoopState),
      history_loop env ss i st0 = (st, none) →
      (∀ p ∈ st0.readings, keyset p.2 ∈ st0.encountered) →
      (∀ p ∈ st.readings, keyset p.2 ∈ st.encountered) := by
  intro ss
  induction ss with
  | nil =>
    intro i st0 st h h0
    rw [history_loop] at h
    cases h
    exact h0
  | cons sensor rest ih =>
    intro i st0 st h h0
    rw [history_loop] at h
    split at h
    · cases h
    · split at h
      · cases h
      · split at h
        · cases h
        · refine ih (i + 1) _ st h ?_
          intro p hp
          simp only [List.mem_append] at hp
          rcases hp with hp | hp
          · exact List.mem_append_left _ (h0 p hp)
          · rw [List.mem_singleton] at hp
            subst hp
            exact List.mem_append_right _ (List.mem_singleton_self _)

/-- Characterization of the value-reading loop: on a payload long
enough for the remaining `n` values it succeeds, stores the normalized
value read at offset `cursor + j * step` under key `index + j - 2` for
each `j < n`, leaves every other key as in `buffer`, and preserves key
uniqueness (hypotheses require the pending keys to be fresh in
`buffer`, which holds for the empty initial buffer). -/
theorem read_chunk_values_spec (sensor : Nat)
    (hs : sensor = SENSOR_TEMPERATURE ∨ sensor = SENSOR_HUMIDITY ∨
      sensor = SENSOR_PRESSURE ∨ sensor = SENSOR_CO2)
    (payload : List Nat) (step : Nat)
    (hstep : step = if sensor = SENSOR_HUMIDITY then 1 else 2) :
    ∀ (n cursor : Nat) (index : Int) (buffer : List (Int × ℚ)),
      cursor + n * step ≤ payload.length →
      (∀ k ∈ buffer.map Prod.fst, ∀ j : Nat, j < n → k ≠ index + j - 2) →
      ∃ buf2, read_chunk_values sensor payload step n cursor index buffer = some buf2 ∧
        (∀ j : Nat, j < n → ∃ raw q,
          (if sensor = SENSOR_HUMIDITY then payload.get? (cursor + j * step)
           else le16 payload (cursor + j * step)) = some raw ∧
          normalize_value raw sensor = some q ∧
          dict_get buf2 (index + j - 2) = some q) ∧
        (∀ k : Int, (∀ j : Nat, j < n → k ≠ index + j - 2) →
          dict_get buf2 k = dict_get buffer k) ∧
        ((buffer.map Prod.fst).Nodup → (buf2.map Prod.fst).Nodup) := by
  intro n
  induction n with
  | zero =>
    intro cursor index buffer hlen hfresh
    exact ⟨buffer, rfl, fun j hj => absurd hj (Nat.not_lt_zero j),
      fun k _ => rfl, id⟩
  | succ n ih =>
    intro cursor index buffer hlen hfresh
    have hstep_pos : 1 ≤ step := by rw [hstep]; split <;> omega
    have hmul : (n + 1) * step = n * step + step := Nat.succ_mul n step
    obtain ⟨raw, hraw⟩ : ∃ r, (if sensor = SENSOR_HUMIDITY then payload.get? cursor
        else le16 payload cursor) = some r := by
      by_cases hh : sensor = SENSOR_HUMIDITY
      · rw [if_pos hh]
        have hc : cursor < payload.length := by
          rw [hstep, if_pos hh] at hlen
          omega
        exact ⟨_, List.get?_eq_get hc⟩
      · rw [if_neg hh]
        have hc : cursor + 1 + 1 ≤ payload.length := by
          rw [hstep, if_neg hh] at hlen
          omega
        exact ⟨_, le16_eq_some payload cursor hc⟩
    obtain ⟨q, hq⟩ := Option.isSome_iff_exists.mp (normalize_value_isSome raw sensor hs)
    have hfresh0 : index - 2 ∉ buffer.map Prod.fst := by
      intro hmem
      exact hfresh _ hmem 0 (by omega) (by push_cast; ring)
    have hbound2 : (cursor + step) + n * step ≤ payload.length := by omega
    have hfresh2 : ∀ k ∈ (dict_insert buffer (index - 2) q).map Prod.fst,
        ∀ j : Nat, j < n → k ≠ (index + 1) + j - 2 := by
      intro k hk j hj
      rcases dict_insert_keys_mem buffer (index - 2) k q hk with hmem | hke
      · intro he
        exact hfresh k hmem (j + 1) (by omega) (by rw [he]; push_cast; ring)
      · intro he
        rw [hke] at he
        omega
    obtain ⟨buf2, hbuf2, hreads, hpres2, hnodup2⟩ := ih (cursor + step) (index + 1)
      (dict_insert buffer (index - 2) q) hbound2 hfresh2
    refine ⟨buf2, ?_, ?_, ?_, ?_⟩
    · rw [read_chunk_values, hraw]
      simp only [hq]
      exact hbuf2
    · intro j hj
      cases j with
      | zero =>
        refine ⟨raw, q, by simpa using hraw, hq, ?_⟩
        have hkey : index + ((0 : Nat) : Int) - 2 = index - 2 := by push_cast; ring
        rw [hkey]
        have hne : ∀ j : Nat, j < n → (index - 2 : Int) ≠ (index + 1) + j - 2 := by
          intro j hj he
          omega
        rw [hpres2 (index - 2) hne]
        exact dict_get_insert_self buffer (index - 2) q
      | succ j2 =>
        obtain ⟨raw2, q2, hraw2, hq2, hget2⟩ := hreads j2 (by omega)
        refine ⟨raw2, q2, ?_, hq2, ?_⟩
        · have hm2 : (j2 + 1) * step = j2 * step + step := Nat.succ_mul j2 step
          have harg : cursor + step + j2 * step = cursor + (j2 + 1) * step := by omega
          rw [← harg]
          exact hraw2
        · have hkey : index + ((j2 + 1 : Nat) : Int) - 2 = (index + 1) + (j2 : Int) - 2 := by
            push_cast; ring
          rw [hkey]
          exact hget2
    · intro k hk
      have hk2 : ∀ j : Nat, j < n → k ≠ (index + 1) + j - 2 := by
        intro j hj he
        exact hk (j + 1) (by omega) (by rw [he]; push_cast; ring)
      rw [hpres2 k hk2]
      exact dict_get_insert_ne buffer (index - 2) k q
        (fun he => hk 0 (by omega) (by rw [he]; push_cast; ring))
    · intro hnd
      apply hnodup2
      rw [dict_insert_of_fresh buffer (index - 2) q hfresh0, List.map_append]
      rw [List.nodup_append]
      refine ⟨hnd, List.nodup_singleton _, ?_⟩
      intro a ha hmem
      simp only [List.map_cons, List.map_nil, List.mem_singleton] at hmem
      rw [hmem] at ha
      exact hfresh0 ha

/-! ## Claim theorems: byte codec and normalizer -/

/-- C9: for every value `v` in 0..65535, every buffer and every valid
position `p` (with `p + 1` within the buffer), reading a little-endian
16-bit value at `p` from the buffer produced by writing `v`
little-endian at `p` returns exactly `v`. -/
theorem le16_write_le16_roundtrip (buf : List Nat) (p : Nat) (v : Nat)
    (hp : p + 1 < buf.length) (hv : v ≤ 65535) :
    ∃ buf2, write_le16 buf p (v : Int) = some buf2 ∧ le16 buf2 p = some v := by
  refine ⟨(buf.set p ((v : Int) % 256).toNat).set (p + 1) (((v : Int).fdiv 256 % 256).toNat),
    ?_, ?_⟩
  · simp [write_le16, hp]
  · have hlen1 : p < ((buf.set p ((v : Int) % 256).toNat).set (p + 1)
        (((v : Int).fdiv 256 % 256).toNat)).length := by
      simpa using Nat.lt_of_succ_lt hp
    have hlen2 : p + 1 < ((buf.set p ((v : Int) % 256).toNat).set (p + 1)
        (((v : Int).fdiv 256 % 256).toNat)).length := by
      simpa using hp
    have hlo : ((buf.set p ((v : Int) % 256).toNat).set (p + 1)
        (((v : Int).fdiv 256 % 256).toNat)).get? p = some (((v : Int) % 256).toNat) := by
      rw [List.get?_eq_get hlen1]
      have hne : p + 1 ≠ p := by omega
      simp [List.getElem_set, hne, Nat.lt_of_succ_lt hp]
    have hhi : ((buf.set p ((v : Int) % 256).toNat).set (p + 1)
        (((v : Int).fdiv 256 % 256).toNat)).get? (p + 1) = some
        (((v : Int).fdiv 256 % 256).toNat) := by
      rw [List.get?_eq_get hlen2]
      simp [List.getElem_set]
    rw [le16, hlo, hhi]
    have h1 : ((v : Int) % 256).toNat = v % 256 := by
      omega
    have hfd : (v : Int).fdiv 256 = ((v / 256 : Nat) : Int) := by
      rw [Int.fdiv_eq_ediv] <;> omega
    have h2 : ((v : Int).fdiv 256 % 256).toNat = v / 256 % 256 := by
      rw [hfd]
      omega
    have h3 : v / 256 % 256 = v / 256 := by
      have : v / 256 < 256 := by omega
      omega
    rw [h1, h2, h3]
    have : v % 256 + (v / 256) <<< 8 = v := by
      rw [Nat.shiftLeft_eq]
      have := Nat.mod_add_div v 256
      omega
    simp [this]

/-- C9 witness at `v = 0xBEEF`, `p = 1` on a 4-byte buffer. -/
theorem le16_write_le16_roundtrip_witness :
    (1 + 1 < ([0, 0, 0, 0] : List Nat).length ∧ 0xBEEF ≤ 65535) ∧
    ∃ buf2, write_le16 [0, 0, 0, 0] 1 (0xBEEF : Int) = some buf2 ∧
      le16 buf2 1 = some 0xBEEF :=
  ⟨⟨by decide, by decide⟩,
    le16_write_le16_roundtrip [0, 0, 0, 0] 1 0xBEEF (by decide) (by decide)⟩

/-- C7: the normalizer computes exactly the sentinel table of the spec:
Humidity → -1 when `raw &&& 0x80` is set, else the raw integer; CO₂ →
-1 when bit 15 is set, else the raw integer; Pressure → -1 when bit 15
is set, else `raw / 10`; Temperature → -1 when `raw = 0x4000`, else 0
when `raw > 0x8000`, else `raw / 20`; any other sensor tag is an error. -/
theorem normalize_value_spec (raw : Nat) :
    ((raw &&& 0x80 = 0x80 → normalize_value raw SENSOR_HUMIDITY = some (-1)) ∧
     (raw &&& 0x80 ≠ 0x80 → normalize_value raw SENSOR_HUMIDITY = some (raw : ℚ))) ∧
    ((raw &&& 0x8000 = 0x8000 → normalize_value raw SENSOR_CO2 = some (-1)) ∧
     (raw &&& 0x8000 ≠ 0x8000 → normalize_value raw SENSOR_CO2 = some (raw : ℚ))) ∧
    ((raw &&& 0x8000 = 0x8000 → normalize_value raw SENSOR_PRESSURE = some (-1)) ∧
     (raw &&& 0x8000 ≠ 0x8000 →
       normalize_value raw SENSOR_PRESSURE = some ((raw : ℚ) / 10))) ∧
    ((raw = 0x4000 → normalize_value raw SENSOR_TEMPERATURE = some (-1)) ∧
     (raw ≠ 0x4000 → raw > 0x8000 → normalize_value raw SENSOR_TEMPERATURE = some 0) ∧
     (raw ≠ 0x4000 → ¬ raw > 0x8000 →
       normalize_value raw SENSOR_TEMPERATURE = some ((raw : ℚ) / 20))) ∧
    (∀ sensor : Nat, sensor ∉ [SENSOR_TEMPERATURE, SENSOR_HUMIDITY,
        SENSOR_PRESSURE, SENSOR_CO2] → normalize_value raw sensor = none) := by
  refine ⟨⟨?_, ?_⟩, ⟨?_, ?_⟩, ⟨?_, ?_⟩, ⟨?_, ?_, ?_⟩, ?_⟩ <;>
    intro h <;>
    simp_all [normalize_value, SENSOR_HUMIDITY, SENSOR_CO2, SENSOR_PRESSURE,
      SENSOR_TEMPERATURE]

/-- Evaluation of a completed `get_history` run in terms of its loop
state, descending common-index list and recorded head instant. -/
theorem get_history_eval (sensors : List Nat) (start end_ : Int) (env : HistoryEnv)
    (st : LoopState) (c0 : Int) (cs : List Int) (t0 : Int)
    (hint : env.interval_error = none)
    (hloop : history_loop env.sensor_env
      (if sensors.isEmpty then default_sensors else sensors) 0 init_loop_state =
      (st, none))
    (hsort : sort_desc (intersect_all st.encountered) = c0 :: cs)
    (hidx : dict_get st.index_map c0 = some t0) :
    get_history false sensors start end_ env =
      (Except.ok ⟨st.included,
        st.readings.map (fun sp => (sp.1, restrict sp.2 (intersect_all st.encountered))),
        assign_timestamps (env.interval : Int) (c0 :: cs) t0⟩, st.reading) := by
  simp only [get_history, hint, hloop, hsort, hidx, Bool.false_eq_true, if_false]

/-- Concrete environments for the session-controller scenarios. -/
def c1_env : HistoryEnv := ⟨none, 60, fun _ => ⟨none, 1000, 30, [(10, 600)]⟩⟩

def c1_state : LoopState :=
  ⟨false, [{10}], [(10, 970)], [(SENSOR_CO2, [(10, 600)])], ["co2"]⟩

def c1_result : ReconciledHistory :=
  ⟨["co2"], [(SENSOR_CO2, [(10, 600)])], [(10, 970)]⟩

/-- C1: every successful `get_history` result has, for each included
sensor, a per-sensor map whose key set is exactly the intersection of
all collected per-sensor key sets, equal to the key set of the
timestamps map; and on the descending-sorted common indices the
highest one carries the last-update instant recorded against it in
`index_map` while each subsequent lower one carries a timestamp exactly
one update interval smaller than its predecessor's. -/
theorem get_history_ok_invariant
    (reading : Bool) (sensors : List Nat) (start end_ : Int) (env : HistoryEnv)
    (r : ReconciledHistory) (flag : Bool)
    (h : get_history reading sensors start end_ env = (Except.ok r, flag)) :
    ∃ st : LoopState,
      history_loop env.sensor_env
        (if sensors.isEmpty then default_sensors else sensors) 0 init_loop_state =
        (st, none) ∧
      (∀ p ∈ r.per_sensor, keyset p.2 = intersect_all st.encountered) ∧
      keyset r.timestamps = intersect_all st.encountered ∧
      (∀ (c0 : Int) (cs : List Int),
        sort_desc (intersect_all st.encountered) = c0 :: cs →
        (dict_get st.index_map c0).isSome ∧
        dict_get r.timestamps c0 = dict_get st.index_map c0 ∧
        (∀ (j : Nat) (hj : j + 1 < (c0 :: cs).length),
          ∃ t, dict_get r.timestamps ((c0 :: cs).get ⟨j, by omega⟩) = some t ∧
            dict_get r.timestamps ((c0 :: cs).get ⟨j + 1, hj⟩) =
              some (t - (env.interval : Int)))) := by
  simp only [get_history] at h
  split at h
  · simp at h
  · split at h
    · simp at h
    · split at h
      · simp at h
      · rename_i st hloop
        split at h
        · simp at h
        · rename_i c0 cs hsort
          split at h
          · simp at h
          · rename_i t0 hidx
            rw [Prod.mk.injEq] at h
            obtain ⟨h1, h2⟩ := h
            rw [Except.ok.injEq] at h1
            subst h1
            refine ⟨st, hloop, ?_, ?_, ?_⟩
            · intro p hp
              simp only at hp
              obtain ⟨sp, hsp, hpe⟩ := List.mem_map.mp hp
              have halig := history_loop_aligned env.sensor_env _ 0 init_loop_state
                st hloop (by intro p hp; simp [init_loop_state] at hp)
              have hks : keyset sp.2 ∈ st.encountered := halig sp hsp
              have hsub : intersect_all st.encountered ⊆ keyset sp.2 :=
                intersect_all_subset _ _ hks
              rw [← hpe]
              show keyset (restrict sp.2 (intersect_all st.encountered)) = _
              rw [keyset_restrict]
              exact Finset.inter_eq_right.mpr hsub
            · show keyset (assign_timestamps (env.interval : Int) (c0 :: cs) t0) = _
              unfold keyset
              rw [assign_timestamps_map_fst]
              rw [← hsort, sort_desc, List.toFinset_reverse, Finset.sort_toFinset]
            · intro c02 cs2 hsort2
              rw [hsort] at hsort2
              obtain ⟨he1, he2⟩ := List.cons.injEq .. ▸ hsort2
              subst he1
              subst he2
              have hnd : (c0 :: cs).Nodup := by
                rw [← hsort, sort_desc]
                exact List.nodup_reverse.mpr (Finset.sort_nodup _ _)
              refine ⟨by rw [hidx]; rfl, ?_, ?_⟩
              · have h0 := assign_timestamps_get (env.interval : Int) (c0 :: cs) hnd
                  t0 0 (by simp)
                norm_num at h0
                show dict_get (assign_timestamps (env.interval : Int) (c0 :: cs) t0)
                  c0 = _
                rw [h0, hidx]
              · intro j hj
                have hji := assign_timestamps_get (env.interval : Int) (c0 :: cs) hnd
                  t0 j (by omega)
                have hji1 := assign_timestamps_get (env.interval : Int) (c0 :: cs) hnd
                  t0 (j + 1) hj
                refine ⟨t0 - j * (env.interval : Int), hji, ?_⟩
                rw [hji1]
                congr 1
                push_cast
                ring

/-- C1 witness: a concrete single-sensor run (CO₂, interval 60 s,
since-last-update 30 s, one stored value at index 10). -/
theorem get_history_ok_invariant_witness :
    ∃ st : LoopState,
      history_loop c1_env.sensor_env
        (if ([SENSOR_CO2] : List Nat).isEmpty then default_sensors
          else [SENSOR_CO2]) 0 init_loop_state = (st, none) ∧
      (∀ p ∈ c1_result.per_sensor, keyset p.2 = intersect_all st.encountered) ∧
      keyset c1_result.timestamps = intersect_all st.encountered := by
  have hloop : history_loop c1_env.sensor_env
      (if ([SENSOR_CO2] : List Nat).isEmpty then default_sensors
        else [SENSOR_CO2]) 0 init_loop_state = (c1_state, none) := by decide
  have hcommon : intersect_all c1_state.encountered = ({10} : Finset Int) := by decide
  have hh : get_history false [SENSOR_CO2] 1 65535 c1_env =
      (Except.ok c1_result, false) := by
    rw [get_history_eval [SENSOR_CO2] 1 65535 c1_env c1_state 10 [] 970 rfl hloop
      (by rw [hcommon, sort_desc_singleton]) (by decide)]
    rw [hcommon]
    rfl
  obtain ⟨st, h1, h2, h3, _⟩ := get_history_ok_invariant false [SENSOR_CO2] 1 65535
    c1_env c1_result false hh
  exact ⟨st, h1, h2, h3⟩

/-- C5 (amended): when the loop completes and the intersection of the
collected per-sensor key sets is empty, the call fails — but with a
Python `IndexError` from `common_indexes[0]` on the empty sorted list,
not with a dedicated `EmptyHistory` error, which `exceptions.py` does
not define. -/
theorem get_history_empty_intersection
    (sensors : List Nat) (start end_ : Int) (env : HistoryEnv) (st : LoopState)
    (hint : env.interval_error = none)
    (hloop : history_loop env.sensor_env
      (if sensors.isEmpty then default_sensors else sensors) 0 init_loop_state =
      (st, none))
    (hempty : intersect_all st.encountered = ∅) :
    get_history false sensors start end_ env =
      (Except.error PyError.indexError, st.reading) := by
  simp only [get_history, hint, hloop, hempty, sort_desc_empty,
    Bool.false_eq_true, if_false]

/-- Environment in which CO₂ and humidity return disjoint index sets
(the device log rolled over between the two sequential reads). -/
def c5_env : HistoryEnv :=
  ⟨none, 60, fun i => if i = 0 then ⟨none, 1000, 30, [(10, 600)]⟩
    else ⟨none, 1000, 30, [(20, 50)]⟩⟩

def c5_state : LoopState :=
  ⟨false, [{10}, {20}], [(10, 970), (20, 970)],
    [(SENSOR_CO2, [(10, 600)]), (SENSOR_HUMIDITY, [(20, 50)])],
    ["co2", "humidity"]⟩

/-- C5 witness: the disjoint two-sensor run, via the amended theorem. -/
theorem get_history_empty_intersection_witness :
    get_history false [SENSOR_CO2, SENSOR_HUMIDITY] 1 65535 c5_env =
      (Except.error PyError.indexError, c5_state.reading) :=
  get_history_empty_intersection [SENSOR_CO2, SENSOR_HUMIDITY] 1 65535 c5_env
    c5_state rfl (by decide) (by decide)

/-- C5 counterexample: on the disjoint run the call fails with
`IndexError`, not with the `EmptyHistory` error the claim names (no
such error exists in the code). -/
theorem get_history_empty_history_cex :
    get_history false [SENSOR_CO2, SENSOR_HUMIDITY] 1 65535 c5_env =
      (Except.error PyError.indexError, false) ∧
    PyError.indexError ≠ PyError.emptyHistory := by
  constructor
  · have := get_history_empty_intersection [SENSOR_CO2, SENSOR_HUMIDITY] 1 65535
      c5_env c5_state rfl (by decide) (by decide)
    exact this
  · decide

/-- C10: any exception raised after `self._reading = True` but before
the first sensor's notification phase completes (a failed discovery,
interval read, since-last-update read, range write or subscription)
propagates with the busy flag still set, and every subsequent
`get_history` call on the object then fails with Busy. -/
theorem get_history_busy_leak
    (sensors : List Nat) (start end_ : Int) (env : HistoryEnv) (e : PyError)
    (h : env.interval_error = some e ∨
      (env.interval_error = none ∧ (env.sensor_env 0).pre_error = some e)) :
    get_history false sensors start end_ env = (Except.error e, true) ∧
    (∀ (sensors2 : List Nat) (start2 end2 : Int) (env2 : HistoryEnv),
      get_history true sensors2 start2 end2 env2 =
        (Except.error PyError.busy, true)) := by
  constructor
  · rcases h with h | ⟨h1, h2⟩
    · simp only [get_history, h, Bool.false_eq_true, if_false]
    · obtain ⟨s2, ss2, hcons⟩ : ∃ s2 ss2,
          (if sensors.isEmpty then default_sensors else sensors) = s2 :: ss2 := by
        cases sensors with
        | nil => exact ⟨SENSOR_CO2, _, rfl⟩
        | cons s ss => exact ⟨s, ss, by simp⟩
      have hloop : history_loop env.sensor_env
          (if sensors.isEmpty then default_sensors else sensors) 0 init_loop_state =
          (init_loop_state, some e) := by
        rw [hcons, history_loop, h2]
      simp only [get_history, h1, hloop, Bool.false_eq_true, if_false]
      rfl
  · intro sensors2 start2 end2 env2
    rfl

/-- Environment whose very first transport operation fails. -/
def c10_env : HistoryEnv := ⟨some PyError.unpaired, 60, fun _ => ⟨none, 0, 0, []⟩⟩

/-- C10 witness: a failed update-interval read leaves the flag set and
the next call is rejected with Busy. -/
theorem get_history_busy_leak_witness :
    get_history false [SENSOR_CO2] 1 65535 c10_env =
      (Except.error PyError.unpaired, true) ∧
    get_history true [SENSOR_CO2] 1 65535 c10_env =
      (Except.error PyError.busy, true) := by
  have h := get_history_busy_leak [SENSOR_CO2] 1 65535 c10_env PyError.unpaired
    (Or.inl rfl)
  exact ⟨h.1, h.2 [SENSOR_CO2] 1 65535 c10_env⟩

/-- Environment for a healthy two-sensor read (CO₂ then humidity). -/
def c4_env : HistoryEnv :=
  ⟨none, 60, fun i => if i = 0 then ⟨none, 1000, 30, [(10, 600)]⟩
    else ⟨none, 1000, 35, [(10, 44)]⟩⟩

def c4_state : LoopState :=
  ⟨false, [{10}, {10}], [(10, 965)],
    [(SENSOR_CO2, [(10, 600)]), (SENSOR_HUMIDITY, [(10, 44)])],
    ["co2", "humidity"]⟩

/-- C4 (code-bug evidence): `self._reading = False` sits inside the
per-sensor loop, so in a two-sensor call the busy flag is already
cleared once the first sensor (CO₂) completes; a second `get_history`
issued while the second sensor (humidity) is still settling therefore
passes the busy check — it is not rejected with Busy, contradicting
the single-flight claim and the Busy exception's own docstring. -/
theorem get_history_busy_cleared_mid_call :
    (history_loop c4_env.sensor_env [SENSOR_CO2] 0 init_loop_state).1.reading
      = false ∧
    (get_history false [SENSOR_CO2, SENSOR_HUMIDITY] 1 65535 c4_env).1 ≠
      Except.error PyError.busy := by
  constructor
  · decide
  · have hloop : history_loop c4_env.sensor_env
        (if ([SENSOR_CO2, SENSOR_HUMIDITY] : List Nat).isEmpty then default_sensors
          else [SENSOR_CO2, SENSOR_HUMIDITY]) 0 init_loop_state =
        (c4_state, none) := by decide
    have hcommon : intersect_all c4_state.encountered = ({10} : Finset Int) := by
      decide
    rw [get_history_eval [SENSOR_CO2, SENSOR_HUMIDITY] 1 65535 c4_env c4_state 10 []
      965 rfl hloop (by rw [hcommon, sort_desc_singleton]) (by decide)]
    intro hcontra
    exact Except.noConfusion hcontra

/-- C3 counterexample: the claim says bytes 0–1 are the fixed magic
`0x82 0x00` and byte 2 is the sensor id; but for sensor CO₂ (id 4),
caller start 1 and end 0xFFFF the written payload has the sensor id at
byte 1 and `0x00` at byte 2. -/
theorem history_range_params_cex :
    history_range_params_for_sensor SENSOR_CO2 1 65535 =
      some [0x82, 0x04, 0x00, 0x00, 0x02, 0x00, 0xFF, 0xFF] ∧
    ¬(([0x82, 0x04, 0x00, 0x00, 0x02, 0x00, 0xFF, 0xFF] : List Nat).get? 1 =
        some 0x00 ∧
      ([0x82, 0x04, 0x00, 0x00, 0x02, 0x00, 0xFF, 0xFF] : List Nat).get? 2 =
        some SENSOR_CO2) := by
  constructor
  · rfl
  · intro h
    exact absurd h.1 (by decide)

/-- C3 (amended): for in-range start and end indices the 8-byte
range-request payload has byte 0 equal to the magic `0x82`, byte 1
equal to the sensor id, bytes 2–3 equal to `0x00`, the caller's start
index converted to the device's 1-offset convention (`start + 1`,
clamped below at 1) written little-endian 16-bit at offset 4, and the
end index written little-endian 16-bit at offset 6. -/
theorem history_range_params_spec (sensor : Nat) (start end_ : Int)
    (hstart : 0 ≤ start) (hstart2 : start + 1 ≤ 65535)
    (hend : 0 ≤ end_) (hend2 : end_ ≤ 65535) :
    ∃ p, history_range_params_for_sensor sensor start end_ = some p ∧
      p.length = 8 ∧
      p.get? 0 = some 0x82 ∧
      p.get? 1 = some sensor ∧
      p.get? 2 = some 0x00 ∧
      p.get? 3 = some 0x00 ∧
      le16 p 4 = some (start + 1).toNat ∧
      le16 p 6 = some end_.toNat := by
  have hne : ¬(start + 1 < 1) := by omega
  have hmain : history_range_params_for_sensor sensor start end_ =
      some [0x82, sensor, 0x00, 0x00, ((start + 1) % 256).toNat,
        ((start + 1).fdiv 256 % 256).toNat, (end_ % 256).toNat,
        (end_.fdiv 256 % 256).toNat] := by
    rw [history_range_params_for_sensor, history_range_params]
    simp only [write_le16, List.length_cons, List.length_nil, List.length_set,
      hne, if_false, if_pos (by omega : 4 + 1 < 8), if_pos (by omega : 6 + 1 < 8)]
    rfl
  refine ⟨_, hmain, rfl, rfl, rfl, rfl, rfl, ?_, ?_⟩
  · rw [le16]
    show some (((start + 1) % 256).toNat + ((start + 1).fdiv 256 % 256).toNat <<< 8) =
      some (start + 1).toNat
    rw [Nat.shiftLeft_eq]
    rw [Int.fdiv_eq_ediv _ (by omega)]
    congr 1
    omega
  · rw [le16]
    show some ((end_ % 256).toNat + (end_.fdiv 256 % 256).toNat <<< 8) =
      some end_.toNat
    rw [Nat.shiftLeft_eq]
    rw [Int.fdiv_eq_ediv _ (by omega)]
    congr 1
    omega

/-- C3 witness at sensor = humidity (id 2), start 10, end 300. -/
theorem history_range_params_spec_witness :
    ((0 : Int) ≤ 10 ∧ (10 : Int) + 1 ≤ 65535 ∧ (0 : Int) ≤ 300 ∧ (300 : Int) ≤ 65535) ∧
    ∃ p, history_range_params_for_sensor SENSOR_HUMIDITY 10 300 = some p ∧
      p.length = 8 ∧
      p.get? 0 = some 0x82 ∧
      p.get? 1 = some SENSOR_HUMIDITY ∧
      p.get? 2 = some 0x00 ∧
      p.get? 3 = some 0x00 ∧
      le16 p 4 = some ((10 : Int) + 1).toNat ∧
      le16 p 6 = some (300 : Int).toNat :=
  ⟨⟨by decide, by decide, by decide, by decide⟩,
    history_range_params_spec SENSOR_HUMIDITY 10 300 (by decide) (by decide)
      (by decide) (by decide)⟩

/-- C2: a chunk whose sensor tag equals the expected sensor is decoded
by reading exactly `validCount = data[3]` values from the payload
(step 1 byte for Humidity, 2 bytes little-endian otherwise),
normalizing each, and inserting them at the consecutive keys
`firstIndex - 2, …, firstIndex - 2 + validCount - 1` of the sparse
map, all other keys keeping their previous values — so chunks with
disjoint index ranges merge. -/
theorem receive_history_match_spec (sensor : Nat)
    (hs : sensor = SENSOR_TEMPERATURE ∨ sensor = SENSOR_HUMIDITY ∨
      sensor = SENSOR_PRESSURE ∨ sensor = SENSOR_CO2)
    (now : Int) (st : ReaderState) (b1 b2 n : Nat) (payload : List Nat)
    (hlen : n * (if sensor = SENSOR_HUMIDITY then 1 else 2) ≤ payload.length) :
    ∃ st2, receive_history sensor now st (sensor :: b1 :: b2 :: n :: payload) =
        some st2 ∧
      st2.last_notification = now ∧
      (∀ j : Nat, j < n → ∃ raw q,
        (if sensor = SENSOR_HUMIDITY
          then payload.get? (j * (if sensor = SENSOR_HUMIDITY then 1 else 2))
          else le16 payload (j * (if sensor = SENSOR_HUMIDITY then 1 else 2))) =
          some raw ∧
        normalize_value raw sensor = some q ∧
        dict_get st2.datapoints (((b1 + (b2 <<< 8) : Nat) : Int) + j - 2) = some q) ∧
      (∀ k : Int, (∀ j : Nat, j < n → k ≠ ((b1 + (b2 <<< 8) : Nat) : Int) + j - 2) →
        dict_get st2.datapoints k = dict_get st.datapoints k) := by
  obtain ⟨buf2, hbuf2, hreads, hpres, hnodup⟩ :=
    read_chunk_values_spec sensor hs payload
      (if sensor = SENSOR_HUMIDITY then 1 else 2) rfl n 0
      (((b1 + (b2 <<< 8) : Nat) : Int)) [] (by omega)
      (by intro k hk; simp at hk)
  refine ⟨⟨now, dict_merge st.datapoints buf2⟩, ?_, rfl, ?_, ?_⟩
  · show receive_history sensor now st (sensor :: b1 :: b2 :: n :: payload) = _
    rw [receive_history]
    have h0 : (sensor :: b1 :: b2 :: n :: payload).get? 0 = some sensor := rfl
    have h1 : le16 (sensor :: b1 :: b2 :: n :: payload) 1 = some (b1 + (b2 <<< 8)) := rfl
    have h3 : (sensor :: b1 :: b2 :: n :: payload).get? 3 = some n := rfl
    have h4 : (sensor :: b1 :: b2 :: n :: payload).drop 4 = payload := rfl
    rw [h0]
    simp only [ne_eq, not_true_eq_false, if_false, h1, h3, h4]
    rw [hbuf2]
  · intro j hj
    obtain ⟨raw, q, hraw, hq, hget⟩ := hreads j hj
    refine ⟨raw, q, by simpa using hraw, hq, ?_⟩
    exact dict_get_merge_of_some st.datapoints buf2 _ q (hnodup (List.nodup_nil)) hget
  · intro k hk
    have hnone : dict_get buf2 k = none := by
      rw [hpres k hk]
      rfl
    exact dict_get_merge_of_none st.datapoints buf2 k hnone

/-- C2 witness: a concrete CO₂ chunk with `firstIndex = 5`,
`validCount = 2` and payload values `0x10` and `0x20`, fed into a state
whose map already holds key 100. -/
theorem receive_history_match_spec_witness :
    ∃ st2, receive_history SENSOR_CO2 7 ⟨0, [(100, 5)]⟩
        (SENSOR_CO2 :: 5 :: 0 :: 2 :: [0x10, 0x00, 0x20, 0x00]) = some st2 ∧
      st2.last_notification = 7 ∧
      (∀ j : Nat, j < 2 → ∃ raw q,
        (if SENSOR_CO2 = SENSOR_HUMIDITY
          then [0x10, 0x00, 0x20, 0x00].get?
            (j * (if SENSOR_CO2 = SENSOR_HUMIDITY then 1 else 2))
          else le16 [0x10, 0x00, 0x20, 0x00]
            (j * (if SENSOR_CO2 = SENSOR_HUMIDITY then 1 else 2))) = some raw ∧
        normalize_value raw SENSOR_CO2 = some q ∧
        dict_get st2.datapoints (((5 + (0 <<< 8) : Nat) : Int) + j - 2) = some q) ∧
      (∀ k : Int, (∀ j : Nat, j < 2 → k ≠ ((5 + (0 <<< 8) : Nat) : Int) + j - 2) →
        dict_get st2.datapoints k = dict_get (⟨0, [(100, 5)]⟩ : ReaderState).datapoints k) :=
  receive_history_match_spec SENSOR_CO2 (by decide) 7 ⟨0, [(100, 5)]⟩ 5 0 2
    [0x10, 0x00, 0x20, 0x00] (by decide)

/-- C6 (amended): a chunk whose sensor tag differs from the expected
sensor is discarded without error and the sparse map is unchanged, but
`last_notification` is set to the current instant, because the source
records it before checking the tag. -/
theorem receive_history_mismatch_spec (sensor : Nat) (now : Int) (st : ReaderState)
    (tag : Nat) (rest : List Nat) (hne : tag ≠ sensor) :
    receive_history sensor now st (tag :: rest) =
      some ⟨now, st.datapoints⟩ := by
  rw [receive_history]
  have h0 : (tag :: rest).get? 0 = some tag := rfl
  rw [h0]
  simp only [ne_eq, hne, not_false_eq_true, if_true]

/-- C6 witness: a concrete mismatched chunk. -/
theorem receive_history_mismatch_spec_witness :
    (2 : Nat) ≠ SENSOR_CO2 ∧
    receive_history SENSOR_CO2 100 ⟨0, [(3, 1)]⟩ [2, 9, 9, 9] =
      some ⟨100, [(3, 1)]⟩ :=
  ⟨by decide, receive_history_mismatch_spec SENSOR_CO2 100 ⟨0, [(3, 1)]⟩ 2 [9, 9, 9]
    (by decide)⟩

/-- C6 counterexample: the claim as stated says a mismatched chunk
leaves all reassembler state — including the `lastActivity` instant —
unchanged; but processing a mismatched chunk at instant 100 from a
state whose `last_notification` is 0 yields a state whose
`last_notification` is 100, so the state did change. -/
theorem receive_history_mismatch_cex :
    receive_history SENSOR_CO2 100 ⟨0, []⟩ [2, 9, 9, 9] = some ⟨100, []⟩ ∧
    (⟨100, []⟩ : ReaderState) ≠ ⟨0, []⟩ := by
  constructor
  · rfl
  · intro h
    exact absurd (congrArg ReaderState.last_notification h) (by decide)

/-- C8: on a long-enough buffer the snapshot decoder reads CO₂ as u16
at offset 0, temperature as u16 at offset 2, pressure as u16 at offset
4, humidity as u8 at offset 6 and battery as u8 at offset 7, passing
every field except battery through the normalizer; the full variant
additionally reads the update interval as u16 at offset 9 and
since-last-update as u16 at offset 11. -/
theorem get_readings_spec (data : List Nat) :
    (8 ≤ data.length → ∃ s, get_readings data true = some s ∧
      (le16 data 0).bind (fun v => normalize_value v SENSOR_CO2) = some s.co2 ∧
      (le16 data 2).bind (fun v => normalize_value v SENSOR_TEMPERATURE) =
        some s.temperature ∧
      (le16 data 4).bind (fun v => normalize_value v SENSOR_PRESSURE) =
        some s.pressure ∧
      (data.get? 6).bind (fun v => normalize_value v SENSOR_HUMIDITY) =
        some s.humidity ∧
      data.get? 7 = some s.battery_level ∧
      s.update_interval = none ∧ s.since_last_update = none) ∧
    (13 ≤ data.length → ∃ s, get_readings data false = some s ∧
      (le16 data 0).bind (fun v => normalize_value v SENSOR_CO2) = some s.co2 ∧
      (le16 data 2).bind (fun v => normalize_value v SENSOR_TEMPERATURE) =
        some s.temperature ∧
      (le16 data 4).bind (fun v => normalize_value v SENSOR_PRESSURE) =
        some s.pressure ∧
      (data.get? 6).bind (fun v => normalize_value v SENSOR_HUMIDITY) =
        some s.humidity ∧
      data.get? 7 = some s.battery_level ∧
      s.update_interval = le16 data 9 ∧ s.since_last_update = le16 data 11) := by
  constructor
  · intro h
    obtain ⟨v0, h0⟩ : ∃ v, le16 data 0 = some v := ⟨_, le16_eq_some data 0 (by omega)⟩
    obtain ⟨v2, h2⟩ : ∃ v, le16 data 2 = some v := ⟨_, le16_eq_some data 2 (by omega)⟩
    obtain ⟨v4, h4⟩ : ∃ v, le16 data 4 = some v := ⟨_, le16_eq_some data 4 (by omega)⟩
    obtain ⟨v6, h6⟩ : ∃ v, data.get? 6 = some v :=
      ⟨_, List.get?_eq_get (by omega : 6 < data.length)⟩
    obtain ⟨v7, h7⟩ : ∃ v, data.get? 7 = some v :=
      ⟨_, List.get?_eq_get (by omega : 7 < data.length)⟩
    obtain ⟨co2, hco2⟩ := Option.isSome_iff_exists.mp
      (normalize_value_isSome v0 SENSOR_CO2 (by simp))
    obtain ⟨temp, htemp⟩ := Option.isSome_iff_exists.mp
      (normalize_value_isSome v2 SENSOR_TEMPERATURE (by simp))
    obtain ⟨pres, hpres⟩ := Option.isSome_iff_exists.mp
      (normalize_value_isSome v4 SENSOR_PRESSURE (by simp))
    obtain ⟨hum, hhum⟩ := Option.isSome_iff_exists.mp
      (normalize_value_isSome v6 SENSOR_HUMIDITY (by simp))
    refine ⟨⟨co2, temp, pres, hum, v7, none, none⟩, ?_,
      by rw [h0]; simpa using hco2, by rw [h2]; simpa using htemp,
      by rw [h4]; simpa using hpres, by rw [h6]; simpa using hhum,
      h7, rfl, rfl⟩
    unfold get_readings
    rw [h0, h2, h4, h6, h7]
    simp [hco2, htemp, hpres, hhum]
  · intro h
    obtain ⟨v0, h0⟩ : ∃ v, le16 data 0 = some v := ⟨_, le16_eq_some data 0 (by omega)⟩
    obtain ⟨v2, h2⟩ : ∃ v, le16 data 2 = some v := ⟨_, le16_eq_some data 2 (by omega)⟩
    obtain ⟨v4, h4⟩ : ∃ v, le16 data 4 = some v := ⟨_, le16_eq_some data 4 (by omega)⟩
    obtain ⟨v6, h6⟩ : ∃ v, data.get? 6 = some v :=
      ⟨_, List.get?_eq_get (by omega : 6 < data.length)⟩
    obtain ⟨v7, h7⟩ : ∃ v, data.get? 7 = some v :=
      ⟨_, List.get?_eq_get (by omega : 7 < data.length)⟩
    obtain ⟨v9, h9⟩ : ∃ v, le16 data 9 = some v := ⟨_, le16_eq_some data 9 (by omega)⟩
    obtain ⟨v11, h11⟩ : ∃ v, le16 data 11 = some v :=
      ⟨_, le16_eq_some data 11 (by omega)⟩
    obtain ⟨co2, hco2⟩ := Option.isSome_iff_exists.mp
      (normalize_value_isSome v0 SENSOR_CO2 (by simp))
    obtain ⟨temp, htemp⟩ := Option.isSome_iff_exists.mp
      (normalize_value_isSome v2 SENSOR_TEMPERATURE (by simp))
    obtain ⟨pres, hpres⟩ := Option.isSome_iff_exists.mp
      (normalize_value_isSome v4 SENSOR_PRESSURE (by simp))
    obtain ⟨hum, hhum⟩ := Option.isSome_iff_exists.mp
      (normalize_value_isSome v6 SENSOR_HUMIDITY (by simp))
    refine ⟨⟨co2, temp, pres, hum, v7, some v9, some v11⟩, ?_,
      by rw [h0]; simpa using hco2, by rw [h2]; simpa using htemp,
      by rw [h4]; simpa using hpres, by rw [h6]; simpa using hhum,
      h7, by rw [h9], by rw [h11]⟩
    unfold get_readings
    rw [h0, h2, h4, h6, h7]
    simp [hco2, htemp, hpres, hhum, h9, h11]

/-- C8 witness on a concrete 13-byte buffer. -/
theorem get_readings_spec_witness :
    13 ≤ ([0x90, 0x01, 0x40, 0x01, 0x10, 0x27, 0x38, 0x55, 0x00, 0x3C,
      0x00, 0x1E, 0x00] : List Nat).length ∧
    ∃ s, get_readings [0x90, 0x01, 0x40, 0x01, 0x10, 0x27, 0x38, 0x55, 0x00,
      0x3C, 0x00, 0x1E, 0x00] false = some s ∧
      (le16 [0x90, 0x01, 0x40, 0x01, 0x10, 0x27, 0x38, 0x55, 0x00, 0x3C, 0x00,
        0x1E, 0x00] 0).bind (fun v => normalize_value v SENSOR_CO2) = some s.co2 ∧
      (le16 [0x90, 0x01, 0x40, 0x01, 0x10, 0x27, 0x38, 0x55, 0x00, 0x3C, 0x00,
        0x1E, 0x00] 2).bind (fun v => normalize_value v SENSOR_TEMPERATURE) =
        some s.temperature ∧
      (le16 [0x90, 0x01, 0x40, 0x01, 0x10, 0x27, 0x38, 0x55, 0x00, 0x3C, 0x00,
        0x1E, 0x00] 4).bind (fun v => normalize_value v SENSOR_PRESSURE) =
        some s.pressure ∧
      (([0x90, 0x01, 0x40, 0x01, 0x10, 0x27, 0x38, 0x55, 0x00, 0x3C, 0x00,
        0x1E, 0x00] : List Nat).get? 6).bind
        (fun v => normalize_value v SENSOR_HUMIDITY) = some s.humidity ∧
      ([0x90, 0x01, 0x40, 0x01, 0x10, 0x27, 0x38, 0x55, 0x00, 0x3C, 0x00,
        0x1E, 0x00] : List Nat).get? 7 = some s.battery_level ∧
      s.update_interval = le16 [0x90, 0x01, 0x40, 0x01, 0x10, 0x27, 0x38, 0x55,
        0x00, 0x3C, 0x00, 0x1E, 0x00] 9 ∧
      s.since_last_update = le16 [0x90, 0x01, 0x40, 0x01, 0x10, 0x27, 0x38,
        0x55, 0x00, 0x3C, 0x00, 0x1E, 0x00] 11 :=
  ⟨by decide, (get_readings_spec [0x90, 0x01, 0x40, 0x01, 0x10, 0x27, 0x38,
    0x55, 0x00, 0x3C, 0x00, 0x1E, 0x00]).2 (by decide)⟩

/-- C7 witness: the spec's sample points, each via the main theorem. -/
theorem normalize_value_spec_witness :
    normalize_value 0x80 SENSOR_HUMIDITY = some (-1) ∧
    normalize_value 0x8000 SENSOR_CO2 = some (-1) ∧
    normalize_value 100 SENSOR_PRESSURE = some 10 ∧
    normalize_value 0x4000 SENSOR_TEMPERATURE = some (-1) ∧
    normalize_value 0x9000 SENSOR_TEMPERATURE = some 0 ∧
    normalize_value 400 SENSOR_TEMPERATURE = some 20 := by
  refine ⟨(normalize_value_spec 0x80).1.1 (by decide),
    (normalize_value_spec 0x8000).2.1.1 (by decide),
    ?_, (normalize_value_spec 0x4000).2.2.2.1.1 (by decide),
    (normalize_value_spec 0x9000).2.2.2.1.2.1 (by decide) (by decide),
    ?_⟩
  · have := (normalize_value_spec 100).2.2.1.2 (by decide)
    rw [this]
    norm_num
  · have := (normalize_value_spec 400).2.2.2.1.2.2 (by decide) (by decide)
    rw [this]
    norm_num

end Pyaranet4
